import Mathlib

/-!
# Lunar lander approach state machine (Day 29 sketch)

A shallow embedding of `LanderGame` (`LanderGame.h`, `LanderGame.cpp`,
`LanderTypes.h`, `LanderConfig.h`).

Modelling conventions.

* The private fields of the C++ class become the fields of the structure
  `LanderGame`; every member function becomes a function that takes the object
  and returns the updated object (and the `bool` result, when it has one).
* The `int` fields are mathematical integers.  Signed overflow is undefined in
  C++, so the embedding is exact as long as the values stay in the range of a
  16-bit `int`; `within_int16_while_playing` shows that they do for as long as
  the driver loop keeps calling `update` (that is, until `isGameOver`).
* Everything read from the hardware during one `update()` is an explicit input
  of the tick (`TickInput`): the three levers, the key returned by
  `LanderHardware::getControlButtonPressed`, the value of `millis()` and the two
  values returned by `random(-1, DRIFT_CONTROL)`.

The namespace `Keypad` embeds `readWord` and `loop` of `10 - Keypad/Keypad-w-words.cpp`:
the memory behind the pointer `word` is a function from indices to chars, every store is
recorded with its index, and the keys returned by `waitForKey()` are a stream.
-/

namespace Lander

/-! ## LanderTypes.h -/

/-- Gear states; the enumerators carry the values 0, 1 and -1. -/
inductive GEAR_STATE where
  | GEAR_IDLE
  | GEAR_LOWERING
  | GEAR_RAISING
  deriving DecidableEq

/-- The integer value of a gear state enumerator. -/
def GEAR_STATE.toInt : GEAR_STATE → Int
  | .GEAR_IDLE => 0
  | .GEAR_LOWERING => 1
  | .GEAR_RAISING => -1

/-- The commands returned by the control button matrix. -/
inductive LANDER_CONTROLS where
  | UNUSED
  | STEER_UP
  | STEER_DOWN
  | STEER_LEFT
  | STEER_RIGHT
  | STEER_UP_RIGHT
  | STEER_UP_LEFT
  | STEER_DOWN_RIGHT
  | STEER_DOWN_LEFT
  | LOWER_GEAR
  | RAISE_GEAR
  | RAISE_SPEED
  | LOWER_SPEED
  deriving DecidableEq

/-- The phases of the approach. -/
inductive APPROACH_STATE where
  | APPROACH_INIT
  | APPROACH_PREFLIGHT
  | APPROACH_IN_FLIGHT
  | APPROACH_FINAL
  deriving DecidableEq

/-- Position of a phase in the declaration order of the enum. -/
def APPROACH_STATE.toNat : APPROACH_STATE → Nat
  | .APPROACH_INIT => 0
  | .APPROACH_PREFLIGHT => 1
  | .APPROACH_IN_FLIGHT => 2
  | .APPROACH_FINAL => 3

/-! ## Constants (LanderConfig.h, LanderGame.cpp) -/

/-- Number of gear animation frames. -/
def GEAR_BITMAP_COUNT : Int := 4

/-- Distance to the mother ship at the start. -/
def INITIAL_DISTANCE : Int := 1476

/-- Width of the mother ship. -/
def MAX_MOTHER_SHIP_WIDTH : Int := 21

/-- Height of the mother ship. -/
def MAX_MOTHER_SHIP_HEIGHT : Int := 15

/-- Upper bound passed to the random number generator. -/
def DRIFT_CONTROL : Int := 3

/-- Largest drift of the mother ship on either axis. -/
def MAX_DRIFT : Int := 18

/-- The four ending pictures of `endingBitmaps.h`, by name. -/
inductive EndingBitmap where
  | ENDING_BITMAP_MISSED_MOTHER_SHIP
  | ENDING_BITMAP_TOO_FAST
  | ENDING_BITMAP_SUCCESS
  | ENDING_BITMAP_NO_GEAR
  deriving DecidableEq

/-! ## LanderGame.h -/

/-- The private state of the class `LanderGame`. -/
structure LanderGame where
  approach_state : APPROACH_STATE
  gear_state : GEAR_STATE
  approachStartTime : Nat
  current_gear_bitmap_index : Int
  lander_distance : Int
  lander_speed : Int
  mother_ship_x_offset : Int
  mother_ship_y_offset : Int
  deriving DecidableEq

/-- What one call of `update()` reads from the hardware. -/
structure TickInput where
  thrust_lever : Bool
  systems_lever : Bool
  confirm_lever : Bool
  currentKey : LANDER_CONTROLS
  millis : Nat
  randomX : Int
  randomY : Int
  deriving DecidableEq

/-- The constructor `LanderGame::LanderGame()`. -/
def LanderGame.construct : LanderGame :=
  { approach_state := .APPROACH_INIT
    gear_state := .GEAR_IDLE
    approachStartTime := 0
    current_gear_bitmap_index := 0
    lander_distance := INITIAL_DISTANCE
    lander_speed := 0
    mother_ship_x_offset := 0
    mother_ship_y_offset := 0 }

/-- The inline member `isGameOver`. -/
def isGameOver (g : LanderGame) : Bool :=
  decide (g.lander_distance ≤ 0)

/-! ## LanderGame.cpp -/

/-- The member `processApproachInit`: all levers off starts the preflight. -/
def processApproachInit (g : LanderGame)
    (thrust_lever systems_lever confirm_lever : Bool) : LanderGame :=
  if !thrust_lever && !systems_lever && !confirm_lever then
    { g with approach_state := .APPROACH_PREFLIGHT }
  else g

/-- The member `processApproachPreflight`: all levers on starts the flight. -/
def processApproachPreflight (g : LanderGame)
    (thrust_lever systems_lever confirm_lever : Bool) : LanderGame :=
  if thrust_lever && systems_lever && confirm_lever then
    { g with approach_state := .APPROACH_IN_FLIGHT }
  else g

/-- The member `processSpeedState`; the first component is `actionCompleted`. -/
def processSpeedState (g : LanderGame) (millis : Nat) (action : LANDER_CONTROLS) :
    Bool × LanderGame :=
  match action with
  | .RAISE_SPEED =>
    let g1 := { g with lander_speed := g.lander_speed + 1 }
    (true, if g1.approachStartTime = 0 then { g1 with approachStartTime := millis } else g1)
  | .LOWER_SPEED =>
    (true, if g.lander_speed > 0 then { g with lander_speed := g.lander_speed - 1 } else g)
  | _ => (false, g)

/-- The member `processGearState`; the first component is `actionCompleted`. -/
def processGearState (g : LanderGame) (action : LANDER_CONTROLS) : Bool × LanderGame :=
  match action with
  | .LOWER_GEAR =>
    (true,
      if g.approach_state = .APPROACH_FINAL then
        if g.current_gear_bitmap_index ≠ GEAR_BITMAP_COUNT - 1 then
          { g with gear_state := .GEAR_LOWERING }
        else g
      else g)
  | .RAISE_GEAR =>
    (true,
      if g.current_gear_bitmap_index ≠ 0 then { g with gear_state := .GEAR_RAISING } else g)
  | _ => (false, g)

/-- The member `processSteeringState`. -/
def processSteeringState (g : LanderGame) (action : LANDER_CONTROLS) : LanderGame :=
  match action with
  | .STEER_UP => { g with mother_ship_y_offset := g.mother_ship_y_offset + 1 }
  | .STEER_DOWN => { g with mother_ship_y_offset := g.mother_ship_y_offset - 1 }
  | .STEER_LEFT => { g with mother_ship_x_offset := g.mother_ship_x_offset + 1 }
  | .STEER_RIGHT => { g with mother_ship_x_offset := g.mother_ship_x_offset - 1 }
  | .STEER_UP_RIGHT =>
    { g with mother_ship_x_offset := g.mother_ship_x_offset - 1
             mother_ship_y_offset := g.mother_ship_y_offset + 1 }
  | .STEER_UP_LEFT =>
    { g with mother_ship_x_offset := g.mother_ship_x_offset + 1
             mother_ship_y_offset := g.mother_ship_y_offset + 1 }
  | .STEER_DOWN_RIGHT =>
    { g with mother_ship_x_offset := g.mother_ship_x_offset - 1
             mother_ship_y_offset := g.mother_ship_y_offset - 1 }
  | .STEER_DOWN_LEFT =>
    { g with mother_ship_x_offset := g.mother_ship_x_offset + 1
             mother_ship_y_offset := g.mother_ship_y_offset - 1 }
  | _ => g

/-- The member `processInflightState`: speed, then gear, then steering. -/
def processInflightState (g : LanderGame) (currentKey : LANDER_CONTROLS) (millis : Nat) :
    LanderGame :=
  let r1 := processSpeedState g millis currentKey
  if r1.1 then r1.2
  else
    let r2 := processGearState r1.2 currentKey
    if r2.1 then r2.2
    else processSteeringState r2.2 currentKey

/-- The member `processApproachInFlight`. -/
def processApproachInFlight (g : LanderGame) (currentKey : LANDER_CONTROLS) (millis : Nat) :
    LanderGame :=
  let g1 := processInflightState g currentKey millis
  if g1.lander_distance < INITIAL_DISTANCE / 10 then
    { g1 with approach_state := .APPROACH_FINAL }
  else g1

/-- The member `processApproachFinal`, whose body is empty. -/
def processApproachFinal (g : LanderGame) : LanderGame := g

/-- The member `getRandomDrift`, applied to the value `random(-1, DRIFT_CONTROL)` returned. -/
def getRandomDrift (random : Int) : Int :=
  if random > 1 then 0 else random

/-- The member `updateGearAnimation`. -/
def updateGearAnimation (g : LanderGame) : LanderGame :=
  let g1 := { g with
    current_gear_bitmap_index := g.current_gear_bitmap_index + g.gear_state.toInt }
  if g1.current_gear_bitmap_index = 0 ∨ g1.current_gear_bitmap_index = GEAR_BITMAP_COUNT - 1 then
    { g1 with gear_state := .GEAR_IDLE }
  else g1

/-- The member `updateMotherShipDrift`; `randomX` and `randomY` are the two values
the random number generator returns, in the order of the calls. -/
def updateMotherShipDrift (g : LanderGame) (randomX randomY : Int) : LanderGame :=
  let x0 := g.mother_ship_x_offset + getRandomDrift randomX
  let y0 := g.mother_ship_y_offset + getRandomDrift randomY
  let x1 := if x0 > MAX_DRIFT then MAX_DRIFT else x0
  let x2 := if x1 < -MAX_DRIFT then -MAX_DRIFT else x1
  let y1 := if y0 > MAX_DRIFT then MAX_DRIFT else y0
  let y2 := if y1 < -MAX_DRIFT then -MAX_DRIFT else y1
  { g with mother_ship_x_offset := x2, mother_ship_y_offset := y2 }

/-- The member `updateDistance`. -/
def updateDistance (g : LanderGame) : LanderGame :=
  { g with lander_distance := g.lander_distance - g.lander_speed }

/-- The member `update`: the phase switch (with the fall through from the final
approach into the in-flight case), then the three passive updates. -/
def update (g : LanderGame) (i : TickInput) : LanderGame :=
  let g1 :=
    match g.approach_state with
    | .APPROACH_INIT =>
      processApproachInit g i.thrust_lever i.systems_lever i.confirm_lever
    | .APPROACH_PREFLIGHT =>
      processApproachPreflight g i.thrust_lever i.systems_lever i.confirm_lever
    | .APPROACH_FINAL =>
      processApproachInFlight (processApproachFinal g) i.currentKey i.millis
    | .APPROACH_IN_FLIGHT =>
      processApproachInFlight g i.currentKey i.millis
  updateDistance (updateMotherShipDrift (updateGearAnimation g1) i.randomX i.randomY)

/-- The member `getEndingBitmap`. -/
def getEndingBitmap (g : LanderGame) : EndingBitmap :=
  let missedMotherShip : Bool :=
    !(decide (|g.mother_ship_x_offset| < (MAX_MOTHER_SHIP_WIDTH + 1) / 2) &&
      decide (|g.mother_ship_y_offset| < (MAX_MOTHER_SHIP_HEIGHT + 1) / 2))
  if missedMotherShip then .ENDING_BITMAP_MISSED_MOTHER_SHIP
  else if g.lander_speed > 2 then .ENDING_BITMAP_TOO_FAST
  else if g.current_gear_bitmap_index = GEAR_BITMAP_COUNT - 1 then .ENDING_BITMAP_SUCCESS
  else .ENDING_BITMAP_NO_GEAR

/-! ## Runs of the game -/

/-- The first statement of `update` on its own: the phase switch, before the three
passive updates (`update_eq` relates the two). -/
def phaseSwitch (g : LanderGame) (i : TickInput) : LanderGame :=
  match g.approach_state with
  | .APPROACH_INIT =>
    processApproachInit g i.thrust_lever i.systems_lever i.confirm_lever
  | .APPROACH_PREFLIGHT =>
    processApproachPreflight g i.thrust_lever i.systems_lever i.confirm_lever
  | .APPROACH_FINAL =>
    processApproachInFlight (processApproachFinal g) i.currentKey i.millis
  | .APPROACH_IN_FLIGHT =>
    processApproachInFlight g i.currentKey i.millis

/-- The state after calling `update()` once for each input of the list, in order. -/
def runTicks (g : LanderGame) : List TickInput → LanderGame
  | [] => g
  | i :: rest => runTicks (update g i) rest

/-- A tick with every lever off, no key pressed, clock `t` and no drift. -/
def leversOff (t : Nat) : TickInput :=
  { thrust_lever := false, systems_lever := false, confirm_lever := false,
    currentKey := .UNUSED, millis := t, randomX := 0, randomY := 0 }

/-- A tick with every lever on, the key `k` held, clock `t` and no drift. -/
def leversOn (k : LANDER_CONTROLS) (t : Nat) : TickInput :=
  { thrust_lever := true, systems_lever := true, confirm_lever := true,
    currentKey := k, millis := t, randomX := 0, randomY := 0 }

/-- Whether the tick with input `i` taken in state `g` runs the `RAISE_SPEED` case of
`processSpeedState`: the switch of `update` reaches `processInflightState` only from the
in-flight and final phases, and the key must be `RAISE_SPEED`. -/
def processesRaiseSpeed (g : LanderGame) (i : TickInput) : Bool :=
  match g.approach_state, i.currentKey with
  | .APPROACH_IN_FLIGHT, .RAISE_SPEED => true
  | .APPROACH_FINAL, .RAISE_SPEED => true
  | _, _ => false

/-- No tick of the run of `inputs` from `g` processes `RAISE_SPEED`. -/
def noRaiseSpeedProcessed : LanderGame → List TickInput → Bool
  | _, [] => true
  | g, i :: rest => !processesRaiseSpeed g i && noRaiseSpeedProcessed (update g i) rest

/-! ## Invariant of the states reached from the constructor -/

/-- The gear is idle exactly at the two ends of the animation, and the index is a frame. -/
def GearConsistent (g : LanderGame) : Prop :=
  (g.gear_state = .GEAR_IDLE ∧
      (g.current_gear_bitmap_index = 0 ∨ g.current_gear_bitmap_index = 3)) ∨
    (g.gear_state ≠ .GEAR_IDLE ∧
      (g.current_gear_bitmap_index = 1 ∨ g.current_gear_bitmap_index = 2))

/-- What holds between two calls of `update()` in every run from the constructor. -/
structure Invariant (g : LanderGame) : Prop where
  speed_nonneg : 0 ≤ g.lander_speed
  gear : GearConsistent g
  gear_up : g.approach_state ≠ .APPROACH_FINAL →
    g.current_gear_bitmap_index = 0 ∧ g.gear_state = .GEAR_IDLE
  budget : 2 * g.lander_distance + g.lander_speed * (g.lander_speed + 1) ≤ 2 * INITIAL_DISTANCE
  drift_x : -MAX_DRIFT ≤ g.mother_ship_x_offset ∧ g.mother_ship_x_offset ≤ MAX_DRIFT
  drift_y : -MAX_DRIFT ≤ g.mother_ship_y_offset ∧ g.mother_ship_y_offset ≤ MAX_DRIFT

/-- The driver loop of `Main.cpp` calls `update()` once per pass and never returns from
`displayEndingScreen` once `isGameOver()` holds: every tick of the list is taken in a state
in which the game is not over. -/
def playing : LanderGame → List TickInput → Bool
  | _, [] => true
  | g, i :: rest => !isGameOver g && playing (update g i) rest

/-- The static member `LanderHardware::getRandomDrift` of `LanderHardware.cpp`, applied to
the value `random(-1, DRIFT_CONTROL)` returned. -/
def LanderHardware.getRandomDrift (random : Int) : Int :=
  if random > 1 then 0 else random

/-- While the lander is still on the ground (Init or Preflight) it has no speed. -/
def GroundedStill (g : LanderGame) : Prop :=
  (g.approach_state = .APPROACH_INIT ∨ g.approach_state = .APPROACH_PREFLIGHT) →
    g.lander_speed = 0

end Lander

/-! # The keypad word reader (`10 - Keypad/Keypad-w-words.cpp`) -/

namespace Keypad

/-- Size of the buffer that `loop()` declares and the length it passes to `readWord`. -/
def MAX_WORD_LENGTH : Nat := 4

/-- The memory behind the pointer `word` (the caller's array and whatever follows it),
together with the indices that have been written, oldest first. -/
structure WordBuffer where
  word : Nat → Char
  written : List Nat

/-- The assignment `word[idx] = c`. -/
def WordBuffer.store (b : WordBuffer) (idx : Nat) (c : Char) : WordBuffer :=
  { word := Function.update b.word idx c, written := b.written ++ [idx] }

/-- The `do ... while (c != '#' && i < maxLen)` loop of `readWord`, entered with the counter
at `i`; `waitForKey n` is the key returned by the call number `n` of
`heroKeypad.waitForKey()`, and the loop makes call number `i` when its counter is `i`.
The result is the counter and the buffer when the loop is left.  The counter is a `byte`;
it never exceeds `max 1 maxLen`, which is below 256, so it does not wrap. -/
def readWordLoop (waitForKey : Nat → Char) (maxLen : Nat) (i : Nat) (b : WordBuffer) :
    Nat × WordBuffer :=
  let c := waitForKey i
  let b1 := b.store i c
  let i1 := i + 1
  if c ≠ '#' ∧ i1 < maxLen then readWordLoop waitForKey maxLen i1 b1 else (i1, b1)
termination_by maxLen - i
decreasing_by omega

/-- The function `readWord(word, maxLen)`: the loop, then the terminating `'\0'`. -/
def readWord (waitForKey : Nat → Char) (b : WordBuffer) (maxLen : Nat) : WordBuffer :=
  let r := readWordLoop waitForKey maxLen 0 b
  let i := r.1
  let lastIndex := if r.2.word (i - 1) = '#' then i - 1 else i
  r.2.store lastIndex '\x00'

/-- The call of `readWord` in `loop()`: a fresh array of `MAX_WORD_LENGTH` chars (contents
`uninit`) is passed together with `MAX_WORD_LENGTH`. -/
def loop (waitForKey : Nat → Char) (uninit : Nat → Char) : WordBuffer :=
  readWord waitForKey { word := uninit, written := [] } MAX_WORD_LENGTH

/-- What the loop of `readWord` leaves behind when it is entered with counter `i` and
buffer `b` and left with the pair `r`. -/
def LoopExit (waitForKey : Nat → Char) (maxLen : Nat) (i : Nat) (b : WordBuffer)
    (r : Nat × WordBuffer) : Prop :=
  i < r.1 ∧ r.1 ≤ max (i + 1) maxLen ∧
    r.2.written = b.written ++ List.range' i (r.1 - i) ∧
    r.2.word (r.1 - 1) = waitForKey (r.1 - 1) ∧
    (waitForKey (r.1 - 1) ≠ '#' → maxLen ≤ r.1) ∧
    (∀ j, i ≤ j → j + 1 < r.1 → waitForKey j ≠ '#')

/-- The keys of the list in order, followed by `'#'` for ever. -/
def keysFrom (keys : List Char) : Nat → Char :=
  fun n => keys.getD n '#'

end Keypad

namespace Lander

/-! ## Outcome determination -/

theorem missed_width_threshold : (MAX_MOTHER_SHIP_WIDTH + 1) / 2 = 11 := by decide

theorem missed_height_threshold : (MAX_MOTHER_SHIP_HEIGHT + 1) / 2 = 8 := by decide

theorem final_approach_threshold : INITIAL_DISTANCE / 10 = 147 := by decide

theorem gear_down_index : GEAR_BITMAP_COUNT - 1 = 3 := by decide

/-- C1: for every lander state `getEndingBitmap` returns the missed-mother-ship picture
when `|driftX| ≥ 11` or `|driftY| ≥ 8`, otherwise the too-fast picture when the speed
exceeds 2, otherwise the success picture when the gear index is 3, otherwise the no-gear
picture; the four literal scenarios of the specification follow. -/
theorem getEndingBitmap_outcome (g : LanderGame) :
    getEndingBitmap g =
      (if |g.mother_ship_x_offset| ≥ 11 ∨ |g.mother_ship_y_offset| ≥ 8 then
        EndingBitmap.ENDING_BITMAP_MISSED_MOTHER_SHIP
      else if g.lander_speed > 2 then EndingBitmap.ENDING_BITMAP_TOO_FAST
      else if g.current_gear_bitmap_index = 3 then EndingBitmap.ENDING_BITMAP_SUCCESS
      else EndingBitmap.ENDING_BITMAP_NO_GEAR) ∧
    getEndingBitmap { g with mother_ship_x_offset := 0, mother_ship_y_offset := 0,
                             lander_speed := 1, current_gear_bitmap_index := 3 }
      = EndingBitmap.ENDING_BITMAP_SUCCESS ∧
    getEndingBitmap { g with mother_ship_x_offset := 0, mother_ship_y_offset := 0,
                             lander_speed := 1, current_gear_bitmap_index := 0 }
      = EndingBitmap.ENDING_BITMAP_NO_GEAR ∧
    getEndingBitmap { g with mother_ship_x_offset := 0, mother_ship_y_offset := 0,
                             lander_speed := 5, current_gear_bitmap_index := 3 }
      = EndingBitmap.ENDING_BITMAP_TOO_FAST ∧
    getEndingBitmap { g with mother_ship_x_offset := 15, mother_ship_y_offset := 0,
                             lander_speed := 1, current_gear_bitmap_index := 3 }
      = EndingBitmap.ENDING_BITMAP_MISSED_MOTHER_SHIP := by
  refine ⟨?_, ?_, ?_, ?_, ?_⟩
  · unfold getEndingBitmap
    simp only [missed_width_threshold, missed_height_threshold, gear_down_index,
      ge_iff_le, ← not_lt]
    by_cases hx : |g.mother_ship_x_offset| < 11 <;>
      by_cases hy : |g.mother_ship_y_offset| < 8 <;>
      simp [hx, hy]
  all_goals
    simp [getEndingBitmap, missed_width_threshold, missed_height_threshold, gear_down_index]

/-! ## Frame lemmas for the steps of a tick -/

theorem update_eq (g : LanderGame) (i : TickInput) :
    update g i =
      updateDistance
        (updateMotherShipDrift (updateGearAnimation (phaseSwitch g i)) i.randomX i.randomY) := by
  unfold update phaseSwitch
  cases g.approach_state <;> rfl

theorem updateGearAnimation_approach_state (g : LanderGame) :
    (updateGearAnimation g).approach_state = g.approach_state := by
  unfold updateGearAnimation
  simp only []
  split_ifs <;> rfl

theorem update_approach_state (g : LanderGame) (i : TickInput) :
    (update g i).approach_state = (phaseSwitch g i).approach_state := by
  rw [update_eq]
  simp [updateDistance, updateMotherShipDrift, updateGearAnimation_approach_state]

theorem processInflightState_approach_state (g : LanderGame) (k : LANDER_CONTROLS) (t : Nat) :
    (processInflightState g k t).approach_state = g.approach_state := by
  cases k <;> simp [processInflightState, processSpeedState, processGearState,
    processSteeringState] <;> split_ifs <;> rfl

theorem processInflightState_lander_distance (g : LanderGame) (k : LANDER_CONTROLS) (t : Nat) :
    (processInflightState g k t).lander_distance = g.lander_distance := by
  cases k <;> simp [processInflightState, processSpeedState, processGearState,
    processSteeringState] <;> split_ifs <;> rfl

theorem processInflightState_current_gear_bitmap_index (g : LanderGame) (k : LANDER_CONTROLS)
    (t : Nat) :
    (processInflightState g k t).current_gear_bitmap_index = g.current_gear_bitmap_index := by
  cases k <;> simp [processInflightState, processSpeedState, processGearState,
    processSteeringState] <;> split_ifs <;> rfl

theorem processInflightState_lander_speed (g : LanderGame) (k : LANDER_CONTROLS) (t : Nat) :
    (processInflightState g k t).lander_speed =
      (match k with
       | .RAISE_SPEED => g.lander_speed + 1
       | .LOWER_SPEED => if g.lander_speed > 0 then g.lander_speed - 1 else g.lander_speed
       | _ => g.lander_speed) := by
  cases k <;> simp [processInflightState, processSpeedState, processGearState,
    processSteeringState] <;> split_ifs <;> rfl

theorem processInflightState_gear_state (g : LanderGame) (k : LANDER_CONTROLS) (t : Nat) :
    (processInflightState g k t).gear_state =
      (match k with
       | .LOWER_GEAR =>
         if g.approach_state = .APPROACH_FINAL ∧ g.current_gear_bitmap_index ≠ 3 then
           GEAR_STATE.GEAR_LOWERING
         else g.gear_state
       | .RAISE_GEAR =>
         if g.current_gear_bitmap_index ≠ 0 then GEAR_STATE.GEAR_RAISING else g.gear_state
       | _ => g.gear_state) := by
  cases k <;> simp [processInflightState, processSpeedState, processGearState,
    processSteeringState, gear_down_index] <;> split_ifs <;> simp_all

theorem processInflightState_approachStartTime (g : LanderGame) (k : LANDER_CONTROLS)
    (t : Nat) :
    (processInflightState g k t).approachStartTime =
      if k = .RAISE_SPEED ∧ g.approachStartTime = 0 then t else g.approachStartTime := by
  cases k <;> simp [processInflightState, processSpeedState, processGearState,
    processSteeringState] <;> split_ifs <;> simp_all

/-- Whether `update` reaches `processInflightState` from this phase. -/
theorem phaseSwitch_of_flying (g : LanderGame) (i : TickInput)
    (h : g.approach_state = .APPROACH_IN_FLIGHT ∨ g.approach_state = .APPROACH_FINAL) :
    phaseSwitch g i = processApproachInFlight g i.currentKey i.millis := by
  rcases h with h | h <;> simp [phaseSwitch, h, processApproachFinal]

theorem phaseSwitch_of_grounded (g : LanderGame) (i : TickInput)
    (h : g.approach_state = .APPROACH_INIT ∨ g.approach_state = .APPROACH_PREFLIGHT) :
    phaseSwitch g i = g ∨
      phaseSwitch g i = { g with approach_state := .APPROACH_PREFLIGHT } ∨
      phaseSwitch g i = { g with approach_state := .APPROACH_IN_FLIGHT } := by
  rcases h with h | h
  · simp only [phaseSwitch, h, processApproachInit]
    split_ifs <;> simp
  · simp only [phaseSwitch, h, processApproachPreflight]
    split_ifs <;> simp

theorem flying_or_grounded (p : APPROACH_STATE) :
    (p = .APPROACH_IN_FLIGHT ∨ p = .APPROACH_FINAL) ∨
      (p = .APPROACH_INIT ∨ p = .APPROACH_PREFLIGHT) := by
  cases p <;> simp

theorem processApproachInFlight_fields (g : LanderGame) (k : LANDER_CONTROLS) (t : Nat) :
    (processApproachInFlight g k t).gear_state = (processInflightState g k t).gear_state ∧
    (processApproachInFlight g k t).approachStartTime
      = (processInflightState g k t).approachStartTime ∧
    (processApproachInFlight g k t).current_gear_bitmap_index
      = (processInflightState g k t).current_gear_bitmap_index ∧
    (processApproachInFlight g k t).lander_distance
      = (processInflightState g k t).lander_distance ∧
    (processApproachInFlight g k t).lander_speed = (processInflightState g k t).lander_speed ∧
    (processApproachInFlight g k t).mother_ship_x_offset
      = (processInflightState g k t).mother_ship_x_offset ∧
    (processApproachInFlight g k t).mother_ship_y_offset
      = (processInflightState g k t).mother_ship_y_offset := by
  unfold processApproachInFlight
  simp only []
  split_ifs <;> simp

theorem phaseSwitch_current_gear_bitmap_index (g : LanderGame) (i : TickInput) :
    (phaseSwitch g i).current_gear_bitmap_index = g.current_gear_bitmap_index := by
  rcases flying_or_grounded g.approach_state with h | h
  · rw [phaseSwitch_of_flying g i h, (processApproachInFlight_fields g _ _).2.2.1,
      processInflightState_current_gear_bitmap_index]
  · rcases phaseSwitch_of_grounded g i h with e | e | e <;> rw [e]

theorem phaseSwitch_lander_distance (g : LanderGame) (i : TickInput) :
    (phaseSwitch g i).lander_distance = g.lander_distance := by
  rcases flying_or_grounded g.approach_state with h | h
  · rw [phaseSwitch_of_flying g i h, (processApproachInFlight_fields g _ _).2.2.2.1,
      processInflightState_lander_distance]
  · rcases phaseSwitch_of_grounded g i h with e | e | e <;> rw [e]

theorem phaseSwitch_lander_speed (g : LanderGame) (i : TickInput) :
    (phaseSwitch g i).lander_speed = g.lander_speed ∨
      (phaseSwitch g i).lander_speed = g.lander_speed + 1 ∨
      (0 < g.lander_speed ∧ (phaseSwitch g i).lander_speed = g.lander_speed - 1) := by
  rcases flying_or_grounded g.approach_state with h | h
  · rw [phaseSwitch_of_flying g i h, (processApproachInFlight_fields g _ _).2.2.2.2.1,
      processInflightState_lander_speed]
    cases i.currentKey <;> dsimp only <;> (try split_ifs) <;> omega
  · rcases phaseSwitch_of_grounded g i h with e | e | e <;> rw [e] <;> simp

theorem phaseSwitch_gear_state (g : LanderGame) (i : TickInput) :
    (phaseSwitch g i).gear_state = g.gear_state ∨
      ((phaseSwitch g i).gear_state = .GEAR_LOWERING ∧
        g.approach_state = .APPROACH_FINAL ∧ g.current_gear_bitmap_index ≠ 3) ∨
      ((phaseSwitch g i).gear_state = .GEAR_RAISING ∧ g.current_gear_bitmap_index ≠ 0) := by
  rcases flying_or_grounded g.approach_state with h | h
  · rw [phaseSwitch_of_flying g i h, (processApproachInFlight_fields g _ _).1,
      processInflightState_gear_state]
    cases i.currentKey <;> dsimp only <;> (try split_ifs with hc) <;>
      first
        | exact Or.inl rfl
        | exact Or.inr (Or.inl ⟨rfl, hc⟩)
        | exact Or.inr (Or.inr ⟨rfl, hc⟩)
  · rcases phaseSwitch_of_grounded g i h with e | e | e <;> rw [e] <;> simp

theorem phaseSwitch_final (g : LanderGame) (i : TickInput)
    (h : g.approach_state = .APPROACH_FINAL) :
    (phaseSwitch g i).approach_state = .APPROACH_FINAL := by
  simp only [phaseSwitch, h, processApproachInFlight, processApproachFinal]
  split_ifs <;> simp [h, processInflightState_approach_state]

theorem update_fields (g : LanderGame) (i : TickInput) :
    (update g i).lander_speed = (phaseSwitch g i).lander_speed ∧
    (update g i).lander_distance = g.lander_distance - (phaseSwitch g i).lander_speed ∧
    (update g i).approachStartTime = (phaseSwitch g i).approachStartTime ∧
    (update g i).current_gear_bitmap_index
      = g.current_gear_bitmap_index + (phaseSwitch g i).gear_state.toInt ∧
    (update g i).gear_state
      = (if g.current_gear_bitmap_index + (phaseSwitch g i).gear_state.toInt = 0 ∨
            g.current_gear_bitmap_index + (phaseSwitch g i).gear_state.toInt = 3 then
          GEAR_STATE.GEAR_IDLE
        else (phaseSwitch g i).gear_state) := by
  rw [update_eq, ← phaseSwitch_current_gear_bitmap_index g i, ← phaseSwitch_lander_distance g i]
  generalize phaseSwitch g i = h
  simp only [updateDistance, updateMotherShipDrift, updateGearAnimation, gear_down_index]
  split_ifs <;> simp

theorem updateMotherShipDrift_bounds (g : LanderGame) (rx ry : Int) :
    -MAX_DRIFT ≤ (updateMotherShipDrift g rx ry).mother_ship_x_offset ∧
      (updateMotherShipDrift g rx ry).mother_ship_x_offset ≤ MAX_DRIFT ∧
      -MAX_DRIFT ≤ (updateMotherShipDrift g rx ry).mother_ship_y_offset ∧
      (updateMotherShipDrift g rx ry).mother_ship_y_offset ≤ MAX_DRIFT := by
  simp only [updateMotherShipDrift, MAX_DRIFT]
  refine ⟨?_, ?_, ?_, ?_⟩ <;> split_ifs <;> omega

theorem update_drift (g : LanderGame) (i : TickInput) :
    (update g i).mother_ship_x_offset
        = (updateMotherShipDrift (updateGearAnimation (phaseSwitch g i))
            i.randomX i.randomY).mother_ship_x_offset ∧
      (update g i).mother_ship_y_offset
        = (updateMotherShipDrift (updateGearAnimation (phaseSwitch g i))
            i.randomX i.randomY).mother_ship_y_offset := by
  rw [update_eq]
  exact ⟨rfl, rfl⟩

theorem invariant_construct : Invariant LanderGame.construct := by
  refine ⟨by decide, Or.inl ⟨rfl, Or.inl rfl⟩, fun _ => ⟨rfl, rfl⟩, by decide, by decide,
    by decide⟩

theorem invariant_update (g : LanderGame) (i : TickInput) (h : Invariant g) :
    Invariant (update g i) := by
  obtain ⟨hs, hg, hu, hb, -, -⟩ := h
  obtain ⟨e1, e2, -, e4, e5⟩ := update_fields g i
  have hdrift := updateMotherShipDrift_bounds (updateGearAnimation (phaseSwitch g i))
    i.randomX i.randomY
  rw [← (update_drift g i).1, ← (update_drift g i).2] at hdrift
  refine ⟨?_, ?_, ?_, ?_, ⟨hdrift.1, hdrift.2.1⟩, ⟨hdrift.2.2.1, hdrift.2.2.2⟩⟩
  · rw [e1]
    rcases phaseSwitch_lander_speed g i with e | e | ⟨_, e⟩ <;> omega
  · unfold GearConsistent at hg ⊢
    rw [e4, e5]
    rcases phaseSwitch_gear_state g i with e | ⟨e, -, hi⟩ | ⟨e, hi⟩
    · rw [e]
      rcases hg with ⟨hidle, h03⟩ | ⟨hmove, h12⟩
      · simp only [hidle, GEAR_STATE.toInt, add_zero]
        rcases h03 with h0 | h3
        · simp [h0]
        · simp [h3]
      · cases hgs : g.gear_state
        · exact absurd hgs hmove
        · simp only [GEAR_STATE.toInt]
          rcases h12 with h1 | h2
          · simp [h1]
          · simp [h2]
        · simp only [GEAR_STATE.toInt]
          rcases h12 with h1 | h2
          · simp [h1]
          · simp [h2]
    · rw [e]
      simp only [GEAR_STATE.toInt]
      rcases hg with ⟨-, h0 | h3⟩ | ⟨-, h1 | h2⟩
      · simp [h0]
      · exact absurd h3 hi
      · simp [h1]
      · simp [h2]
    · rw [e]
      simp only [GEAR_STATE.toInt]
      rcases hg with ⟨-, h0 | h3⟩ | ⟨-, h1 | h2⟩
      · exact absurd h0 hi
      · simp [h3]
      · simp [h1]
      · simp [h2]
  · intro hne
    rw [update_approach_state] at hne
    have hpre : g.approach_state ≠ .APPROACH_FINAL :=
      fun hfin => hne (phaseSwitch_final g i hfin)
    obtain ⟨h0, hidle⟩ := hu hpre
    have hkeep : (phaseSwitch g i).gear_state = .GEAR_IDLE := by
      rcases phaseSwitch_gear_state g i with e | ⟨-, hfin, -⟩ | ⟨-, hi⟩
      · rw [e, hidle]
      · exact absurd hfin hpre
      · exact absurd h0 hi
    rw [e4, e5, hkeep, h0]
    simp [GEAR_STATE.toInt]
  · rw [e1, e2]
    rcases phaseSwitch_lander_speed g i with e | e | ⟨hpos, e⟩ <;> rw [e] <;> nlinarith

theorem invariant_runTicks (inputs : List TickInput) (g : LanderGame) (h : Invariant g) :
    Invariant (runTicks g inputs) := by
  induction inputs generalizing g with
  | nil => exact h
  | cons i rest ih => exact ih (update g i) (invariant_update g i h)

/-! ## Phase transitions -/

/-- C2: the phase after one `update()`: from Init, Preflight when the three levers are off
and Init otherwise; from Preflight, InFlight when the three levers are on and Preflight
otherwise; from InFlight, Final when the distance at the start of the tick is below 147
and InFlight otherwise; from Final, Final. -/
theorem update_phase (g : LanderGame) (i : TickInput) :
    (update g i).approach_state =
      (match g.approach_state with
       | .APPROACH_INIT =>
         if i.thrust_lever = false ∧ i.systems_lever = false ∧ i.confirm_lever = false then
           APPROACH_STATE.APPROACH_PREFLIGHT
         else APPROACH_STATE.APPROACH_INIT
       | .APPROACH_PREFLIGHT =>
         if i.thrust_lever = true ∧ i.systems_lever = true ∧ i.confirm_lever = true then
           APPROACH_STATE.APPROACH_IN_FLIGHT
         else APPROACH_STATE.APPROACH_PREFLIGHT
       | .APPROACH_IN_FLIGHT =>
         if g.lander_distance < 147 then APPROACH_STATE.APPROACH_FINAL
         else APPROACH_STATE.APPROACH_IN_FLIGHT
       | .APPROACH_FINAL => APPROACH_STATE.APPROACH_FINAL) := by
  rw [update_approach_state]
  cases h : g.approach_state
  · simp only [phaseSwitch, h, processApproachInit]
    cases i.thrust_lever <;> cases i.systems_lever <;> cases i.confirm_lever <;> simp [h]
  · simp only [phaseSwitch, h, processApproachPreflight]
    cases i.thrust_lever <;> cases i.systems_lever <;> cases i.confirm_lever <;> simp [h]
  · simp only [phaseSwitch, h, processApproachInFlight, final_approach_threshold,
      processInflightState_lander_distance]
    split_ifs <;> simp [h, processInflightState_approach_state]
  · simp only [phaseSwitch, h, processApproachInFlight, processApproachFinal]
    split_ifs <;> simp [h, processInflightState_approach_state]

theorem runTicks_append (g : LanderGame) (xs ys : List TickInput) :
    runTicks g (xs ++ ys) = runTicks (runTicks g xs) ys := by
  induction xs generalizing g with
  | nil => rfl
  | cons i rest ih => exact ih (update g i)

theorem update_distance_le (g : LanderGame) (i : TickInput) (h : Invariant g) :
    (update g i).lander_distance ≤ g.lander_distance := by
  have hs := (invariant_update g i h).speed_nonneg
  obtain ⟨e1, e2, -⟩ := update_fields g i
  rw [e1] at hs
  omega

theorem runTicks_distance_le (inputs : List TickInput) (g : LanderGame) (h : Invariant g) :
    (runTicks g inputs).lander_distance ≤ g.lander_distance := by
  induction inputs generalizing g with
  | nil => exact le_refl _
  | cons i rest ih =>
    exact le_trans (ih (update g i) (invariant_update g i h)) (update_distance_le g i h)

/-! ## The integer fields stay in the range of a 16-bit `int` -/

theorem speed_le_of_playing (g : LanderGame) (h : Invariant g) (hplay : isGameOver g = false) :
    g.lander_speed ≤ 53 := by
  have hd : 0 < g.lander_distance := by
    simpa [isGameOver] using hplay
  have hb := h.budget
  have hs := h.speed_nonneg
  simp only [INITIAL_DISTANCE] at hb
  by_contra hc
  have h54 : 54 ≤ g.lander_speed := by omega
  nlinarith

theorem bounds_after_playing (inputs : List TickInput) (g : LanderGame) (h : Invariant g)
    (hv : g.lander_speed ≤ 54) (hd : -53 ≤ g.lander_distance)
    (hplay : playing g inputs = true) :
    (runTicks g inputs).lander_speed ≤ 54 ∧ -53 ≤ (runTicks g inputs).lander_distance := by
  induction inputs generalizing g with
  | nil => exact ⟨hv, hd⟩
  | cons i rest ih =>
    simp only [playing, Bool.and_eq_true, Bool.not_eq_true'] at hplay
    have h53 := speed_le_of_playing g h hplay.1
    have hpos : 0 < g.lander_distance := by
      simpa [isGameOver] using hplay.1
    obtain ⟨e1, e2, -⟩ := update_fields g i
    have hv1 : (update g i).lander_speed ≤ 54 := by
      rw [e1]
      rcases phaseSwitch_lander_speed g i with e | e | ⟨-, e⟩ <;> omega
    have hd1 : -53 ≤ (update g i).lander_distance := by
      rw [e1] at hv1
      omega
    exact ih (update g i) (invariant_update g i h) hv1 hd1 hplay.2

/-- For as long as the driver keeps calling `update()`, every integer field of the object
stays far inside the range of a 16-bit `int`, so that the unbounded integers of the
embedding agree with the machine arithmetic (each tick moves a field by at most 2 before
the drift is clamped, and the speed and index by at most 1). -/
theorem within_int16_while_playing (inputs : List TickInput)
    (hplay : playing LanderGame.construct inputs = true) :
    (0 ≤ (runTicks LanderGame.construct inputs).lander_speed ∧
      (runTicks LanderGame.construct inputs).lander_speed ≤ 54) ∧
    (-53 ≤ (runTicks LanderGame.construct inputs).lander_distance ∧
      (runTicks LanderGame.construct inputs).lander_distance ≤ 1476) ∧
    (0 ≤ (runTicks LanderGame.construct inputs).current_gear_bitmap_index ∧
      (runTicks LanderGame.construct inputs).current_gear_bitmap_index ≤ 3) ∧
    (-18 ≤ (runTicks LanderGame.construct inputs).mother_ship_x_offset ∧
      (runTicks LanderGame.construct inputs).mother_ship_x_offset ≤ 18) ∧
    (-18 ≤ (runTicks LanderGame.construct inputs).mother_ship_y_offset ∧
      (runTicks LanderGame.construct inputs).mother_ship_y_offset ≤ 18) := by
  have hinv := invariant_runTicks inputs LanderGame.construct invariant_construct
  obtain ⟨hv, hd⟩ := bounds_after_playing inputs LanderGame.construct invariant_construct
    (by decide) (by decide) hplay
  have hle := runTicks_distance_le inputs LanderGame.construct invariant_construct
  have hg := hinv.gear
  unfold GearConsistent at hg
  refine ⟨⟨hinv.speed_nonneg, hv⟩, ⟨hd, hle⟩, ?_, ?_, ?_⟩
  · rcases hg with ⟨-, h | h⟩ | ⟨-, h | h⟩ <;> rw [h] <;> decide
  · simpa only [MAX_DRIFT] using hinv.drift_x
  · simpa only [MAX_DRIFT] using hinv.drift_y

/-! ## Distance -/

/-- C3: in every run from the constructor the distance is non-increasing: each `update()`
lowers it by exactly the speed that results from the tick, which is never negative, so the
distance after the tick is at most the distance before it, and so after any further ticks. -/
theorem distance_non_increasing (inputs : List TickInput) (i : TickInput)
    (more : List TickInput) :
    (update (runTicks LanderGame.construct inputs) i).lander_distance
        = (runTicks LanderGame.construct inputs).lander_distance
          - (update (runTicks LanderGame.construct inputs) i).lander_speed ∧
      0 ≤ (update (runTicks LanderGame.construct inputs) i).lander_speed ∧
      (update (runTicks LanderGame.construct inputs) i).lander_distance
        ≤ (runTicks LanderGame.construct inputs).lander_distance ∧
      (runTicks LanderGame.construct (inputs ++ more)).lander_distance
        ≤ (runTicks LanderGame.construct inputs).lander_distance := by
  have hinv := invariant_runTicks inputs LanderGame.construct invariant_construct
  obtain ⟨e1, e2, -⟩ := update_fields (runTicks LanderGame.construct inputs) i
  refine ⟨?_, (invariant_update _ i hinv).speed_nonneg, update_distance_le _ i hinv, ?_⟩
  · rw [e2, e1]
  · rw [runTicks_append]
    exact runTicks_distance_le more _ hinv

/-! ## Landing gear -/

/-- C4: in every state reached from the constructor the gear bitmap index lies in
`[0, GEAR_BITMAP_COUNT - 1] = [0, 3]`, so it is a valid index into the four gear frames. -/
theorem gear_index_in_bounds (inputs : List TickInput) :
    0 ≤ (runTicks LanderGame.construct inputs).current_gear_bitmap_index ∧
      (runTicks LanderGame.construct inputs).current_gear_bitmap_index
        ≤ GEAR_BITMAP_COUNT - 1 ∧
      (runTicks LanderGame.construct inputs).current_gear_bitmap_index ≤ 3 ∧
      (runTicks LanderGame.construct inputs).current_gear_bitmap_index < GEAR_BITMAP_COUNT := by
  have hg := (invariant_runTicks inputs LanderGame.construct invariant_construct).gear
  unfold GearConsistent at hg
  simp only [GEAR_BITMAP_COUNT]
  rcases hg with ⟨-, h | h⟩ | ⟨-, h | h⟩ <;> rw [h] <;> decide

/-- C5: at every tick boundary of a run from the constructor the gear state is idle exactly
when the gear bitmap index is 0 or the last index. -/
theorem gear_idle_iff_at_end (inputs : List TickInput) :
    (runTicks LanderGame.construct inputs).gear_state = GEAR_STATE.GEAR_IDLE ↔
      ((runTicks LanderGame.construct inputs).current_gear_bitmap_index = 0 ∨
        (runTicks LanderGame.construct inputs).current_gear_bitmap_index
          = GEAR_BITMAP_COUNT - 1) := by
  have hg := (invariant_runTicks inputs LanderGame.construct invariant_construct).gear
  unfold GearConsistent at hg
  rw [gear_down_index]
  constructor
  · intro hidle
    rcases hg with ⟨-, h⟩ | ⟨hmove, -⟩
    · exact h
    · exact absurd hidle hmove
  · intro hend
    rcases hg with ⟨hidle, -⟩ | ⟨-, h12⟩
    · exact hidle
    · omega

/-- C6: in every state reached from the constructor whose phase is not the final approach,
the gear bitmap index is 0 and the gear is not being lowered (it is idle). -/
theorem gear_up_before_final (inputs : List TickInput)
    (h : (runTicks LanderGame.construct inputs).approach_state
      ≠ APPROACH_STATE.APPROACH_FINAL) :
    (runTicks LanderGame.construct inputs).current_gear_bitmap_index = 0 ∧
      (runTicks LanderGame.construct inputs).gear_state ≠ GEAR_STATE.GEAR_LOWERING ∧
      (runTicks LanderGame.construct inputs).gear_state = GEAR_STATE.GEAR_IDLE := by
  obtain ⟨h0, hidle⟩ :=
    (invariant_runTicks inputs LanderGame.construct invariant_construct).gear_up h
  exact ⟨h0, by rw [hidle]; decide, hidle⟩

/-- Witness for C6: lowering the gear is asked for while in flight at full distance. -/
theorem gear_up_before_final_witness :
    (runTicks LanderGame.construct
        [leversOff 0, leversOn .UNUSED 100, leversOn .LOWER_GEAR 200]).approach_state
      ≠ APPROACH_STATE.APPROACH_FINAL ∧
    ((runTicks LanderGame.construct
        [leversOff 0, leversOn .UNUSED 100, leversOn .LOWER_GEAR 200]).current_gear_bitmap_index
      = 0 ∧
    (runTicks LanderGame.construct
        [leversOff 0, leversOn .UNUSED 100, leversOn .LOWER_GEAR 200]).gear_state
      ≠ GEAR_STATE.GEAR_LOWERING ∧
    (runTicks LanderGame.construct
        [leversOff 0, leversOn .UNUSED 100, leversOn .LOWER_GEAR 200]).gear_state
      = GEAR_STATE.GEAR_IDLE) :=
  ⟨by decide, gear_up_before_final _ (by decide)⟩

/-- C7: `LOWER_GEAR` does nothing unless the phase is the final approach.  In any other
phase `processGearState` returns the object unchanged and reports the action as completed,
`processSpeedState` does not claim the action, and so `processInflightState` returns the
object unchanged, steering included.  In the final approach with the gear index not 3 the
gear state becomes lowering and nothing else changes. -/
theorem lower_gear_only_in_final (g : LanderGame) (t : Nat) :
    (g.approach_state ≠ APPROACH_STATE.APPROACH_FINAL →
      processSpeedState g t .LOWER_GEAR = (false, g) ∧
      processGearState g .LOWER_GEAR = (true, g) ∧
      processInflightState g .LOWER_GEAR t = g) ∧
    (g.approach_state = APPROACH_STATE.APPROACH_FINAL → g.current_gear_bitmap_index ≠ 3 →
      (processInflightState g .LOWER_GEAR t).gear_state = GEAR_STATE.GEAR_LOWERING ∧
      processInflightState g .LOWER_GEAR t = { g with gear_state := .GEAR_LOWERING }) := by
  constructor
  · intro hne
    have hgear : processGearState g .LOWER_GEAR = (true, g) := by
      simp only [processGearState, if_neg hne]
    refine ⟨rfl, hgear, ?_⟩
    simp only [processInflightState, processSpeedState, hgear]
    rfl
  · intro hfin hidx
    have hidx3 : g.current_gear_bitmap_index ≠ GEAR_BITMAP_COUNT - 1 := by
      rw [gear_down_index]; exact hidx
    have hgear : processGearState g .LOWER_GEAR = (true, { g with gear_state := .GEAR_LOWERING }) := by
      simp only [processGearState, if_pos hfin, if_pos hidx3]
    have hall : processInflightState g .LOWER_GEAR t = { g with gear_state := .GEAR_LOWERING } := by
      simp only [processInflightState, processSpeedState, hgear]
      rfl
    exact ⟨by rw [hall], hall⟩

/-- Witness for C7: the same request in flight (ignored) and on the final approach. -/
theorem lower_gear_only_in_final_witness :
    (({ LanderGame.construct with approach_state := .APPROACH_IN_FLIGHT } : LanderGame).approach_state
        ≠ APPROACH_STATE.APPROACH_FINAL ∧
      processInflightState { LanderGame.construct with approach_state := .APPROACH_IN_FLIGHT }
          .LOWER_GEAR 5
        = { LanderGame.construct with approach_state := .APPROACH_IN_FLIGHT }) ∧
    (({ LanderGame.construct with approach_state := .APPROACH_FINAL } : LanderGame).approach_state
        = APPROACH_STATE.APPROACH_FINAL ∧
      ({ LanderGame.construct with approach_state := .APPROACH_FINAL } :
          LanderGame).current_gear_bitmap_index ≠ 3 ∧
      (processInflightState { LanderGame.construct with approach_state := .APPROACH_FINAL }
          .LOWER_GEAR 5).gear_state = GEAR_STATE.GEAR_LOWERING) :=
  ⟨⟨by decide,
      ((lower_gear_only_in_final
        { LanderGame.construct with approach_state := .APPROACH_IN_FLIGHT } 5).1
          (by decide)).2.2⟩,
    ⟨rfl, by decide,
      ((lower_gear_only_in_final
        { LanderGame.construct with approach_state := .APPROACH_FINAL } 5).2
          rfl (by decide)).1⟩⟩

/-! ## Drift -/

/-- C9: after every `update()`, from any state and for any key and any two values returned
by the random number generator, both drift offsets lie in `[-MAX_DRIFT, MAX_DRIFT]`, that
is `[-18, 18]`; steering on its own does not clamp (from 18, `STEER_LEFT` gives 19). -/
theorem drift_within_max_after_update (g : LanderGame) (i : TickInput) :
    (-MAX_DRIFT ≤ (update g i).mother_ship_x_offset ∧
      (update g i).mother_ship_x_offset ≤ MAX_DRIFT ∧
      -MAX_DRIFT ≤ (update g i).mother_ship_y_offset ∧
      (update g i).mother_ship_y_offset ≤ MAX_DRIFT) ∧
    (-18 ≤ (update g i).mother_ship_x_offset ∧ (update g i).mother_ship_x_offset ≤ 18 ∧
      -18 ≤ (update g i).mother_ship_y_offset ∧ (update g i).mother_ship_y_offset ≤ 18) ∧
    (processSteeringState { g with mother_ship_x_offset := 18 } .STEER_LEFT).mother_ship_x_offset
      = 19 := by
  obtain ⟨ex, ey⟩ := update_drift g i
  have hb := updateMotherShipDrift_bounds (updateGearAnimation (phaseSwitch g i))
    i.randomX i.randomY
  rw [← ex, ← ey] at hb
  refine ⟨hb, ?_, ?_⟩
  · simpa only [MAX_DRIFT] using hb
  · simp [processSteeringState]

/-! ## Phase order -/

theorem runTicks_final (inputs : List TickInput) (g : LanderGame)
    (h : g.approach_state = .APPROACH_FINAL) :
    (runTicks g inputs).approach_state = .APPROACH_FINAL := by
  induction inputs generalizing g with
  | nil => exact h
  | cons i rest ih =>
    apply ih (update g i)
    rw [update_approach_state]
    exact phaseSwitch_final g i h

/-- C10: the phase never regresses.  With the order Init, Preflight, InFlight, Final of the
enum, the phase after `update()` is at least the phase before and at most one step further,
for every state and input; and the final approach is absorbing: from a state in that phase
every run of ticks ends in that phase. -/
theorem phase_never_regresses (g : LanderGame) (i : TickInput) :
    g.approach_state.toNat ≤ (update g i).approach_state.toNat ∧
      (update g i).approach_state.toNat ≤ g.approach_state.toNat + 1 ∧
      (g.approach_state = APPROACH_STATE.APPROACH_FINAL →
        ∀ inputs : List TickInput,
          (runTicks g inputs).approach_state = APPROACH_STATE.APPROACH_FINAL) := by
  refine ⟨?_, ?_, fun hfin inputs => runTicks_final inputs g hfin⟩
  all_goals
    rw [update_approach_state]
    cases h : g.approach_state
    · simp only [phaseSwitch, h, processApproachInit]
      split_ifs <;> simp [h, APPROACH_STATE.toNat]
    · simp only [phaseSwitch, h, processApproachPreflight]
      split_ifs <;> simp [h, APPROACH_STATE.toNat]
    · simp only [phaseSwitch, h, processApproachInFlight]
      split_ifs <;> simp [h, APPROACH_STATE.toNat, processInflightState_approach_state]
    · simp [phaseSwitch_final g i h, APPROACH_STATE.toNat]

/-- Witness for C10: a lander on the final approach stays there while keys are pressed and
the levers are moved. -/
theorem phase_never_regresses_witness :
    ({ LanderGame.construct with approach_state := .APPROACH_FINAL } : LanderGame).approach_state
        = APPROACH_STATE.APPROACH_FINAL ∧
      (runTicks { LanderGame.construct with approach_state := .APPROACH_FINAL }
          [leversOff 0, leversOn .RAISE_SPEED 100, leversOn .LOWER_GEAR 200]).approach_state
        = APPROACH_STATE.APPROACH_FINAL :=
  ⟨rfl,
    (phase_never_regresses { LanderGame.construct with approach_state := .APPROACH_FINAL }
      (leversOff 0)).2.2 rfl _⟩

/-! ## Approach start time -/

theorem processesRaiseSpeed_iff (g : LanderGame) (i : TickInput) :
    processesRaiseSpeed g i = true ↔
      (g.approach_state = .APPROACH_IN_FLIGHT ∨ g.approach_state = .APPROACH_FINAL) ∧
        i.currentKey = .RAISE_SPEED := by
  unfold processesRaiseSpeed
  cases g.approach_state <;> cases i.currentKey <;> simp

theorem update_of_raise (g : LanderGame) (i : TickInput)
    (h : processesRaiseSpeed g i = true) :
    (update g i).lander_speed = g.lander_speed + 1 ∧
      (update g i).approachStartTime
        = if g.approachStartTime = 0 then i.millis else g.approachStartTime := by
  obtain ⟨hfly, hkey⟩ := (processesRaiseSpeed_iff g i).mp h
  obtain ⟨e1, -, e3, -⟩ := update_fields g i
  rw [e1, e3, phaseSwitch_of_flying g i hfly, (processApproachInFlight_fields g _ _).2.1,
    (processApproachInFlight_fields g _ _).2.2.2.2.1, processInflightState_lander_speed,
    processInflightState_approachStartTime, hkey]
  simp

theorem update_of_no_raise (g : LanderGame) (i : TickInput)
    (h : processesRaiseSpeed g i = false) :
    (update g i).approachStartTime = g.approachStartTime ∧
      (g.lander_speed = 0 → (update g i).lander_speed = 0) := by
  obtain ⟨e1, -, e3, -⟩ := update_fields g i
  rw [e1, e3]
  rcases flying_or_grounded g.approach_state with hfly | hgr
  · have hkey : i.currentKey ≠ .RAISE_SPEED := by
      intro hk
      rw [(processesRaiseSpeed_iff g i).mpr ⟨hfly, hk⟩] at h
      exact Bool.noConfusion h
    rw [phaseSwitch_of_flying g i hfly, (processApproachInFlight_fields g _ _).2.1,
      (processApproachInFlight_fields g _ _).2.2.2.2.1, processInflightState_lander_speed,
      processInflightState_approachStartTime]
    refine ⟨by simp [hkey], fun hv => ?_⟩
    cases hk : i.currentKey <;> simp_all
  · rcases phaseSwitch_of_grounded g i hgr with e | e | e <;> rw [e] <;> simp

theorem update_approachStartTime_of_set (g : LanderGame) (i : TickInput)
    (h : g.approachStartTime ≠ 0) :
    (update g i).approachStartTime = g.approachStartTime := by
  cases hp : processesRaiseSpeed g i
  · exact (update_of_no_raise g i hp).1
  · rw [(update_of_raise g i hp).2, if_neg h]

theorem runTicks_approachStartTime_of_set (inputs : List TickInput) (g : LanderGame)
    (h : g.approachStartTime ≠ 0) :
    (runTicks g inputs).approachStartTime = g.approachStartTime := by
  induction inputs generalizing g with
  | nil => rfl
  | cons i rest ih =>
    have e := update_approachStartTime_of_set g i h
    have := ih (update g i) (by rw [e]; exact h)
    simpa only [runTicks, e] using this

theorem runTicks_of_no_raise (inputs : List TickInput) (g : LanderGame)
    (h : noRaiseSpeedProcessed g inputs = true) :
    (runTicks g inputs).approachStartTime = g.approachStartTime ∧
      (g.lander_speed = 0 → (runTicks g inputs).lander_speed = 0) := by
  induction inputs generalizing g with
  | nil => exact ⟨rfl, fun hv => hv⟩
  | cons i rest ih =>
    simp only [noRaiseSpeedProcessed, Bool.and_eq_true, Bool.not_eq_true'] at h
    obtain ⟨et, ev⟩ := update_of_no_raise g i h.1
    obtain ⟨iht, ihv⟩ := ih (update g i) h.2
    exact ⟨by simpa only [runTicks, et] using iht, fun hv => ihv (ev hv)⟩

/-- The start time is set once when the clock does not read 0: if the clock reading of the
first tick that processes `RAISE_SPEED` is not 0, the start time is 0 and the speed is 0
before that tick, the tick takes the speed to 1 and writes the clock reading, and no later
tick, whatever its key and clock reading, changes the start time again. -/
theorem approachStartTime_set_once (before : List TickInput) (i : TickInput)
    (later : List TickInput)
    (hfirst : noRaiseSpeedProcessed LanderGame.construct before = true)
    (hraise : processesRaiseSpeed (runTicks LanderGame.construct before) i = true)
    (hclock : i.millis ≠ 0) :
    (runTicks LanderGame.construct before).approachStartTime = 0 ∧
      (runTicks LanderGame.construct before).lander_speed = 0 ∧
      (runTicks LanderGame.construct (before ++ [i])).lander_speed = 1 ∧
      (runTicks LanderGame.construct (before ++ [i])).approachStartTime = i.millis ∧
      (runTicks LanderGame.construct (before ++ i :: later)).approachStartTime = i.millis := by
  obtain ⟨ht, hv⟩ := runTicks_of_no_raise before LanderGame.construct hfirst
  have ht0 : (runTicks LanderGame.construct before).approachStartTime = 0 := by rw [ht]; rfl
  have hv0 : (runTicks LanderGame.construct before).lander_speed = 0 := hv rfl
  obtain ⟨ev, et⟩ := update_of_raise _ i hraise
  rw [if_pos ht0] at et
  rw [hv0] at ev
  refine ⟨ht0, hv0, ?_, ?_, ?_⟩
  · rw [runTicks_append]; simpa only [runTicks] using ev
  · rw [runTicks_append]; simpa only [runTicks] using et
  · rw [runTicks_append]
    simp only [runTicks]
    rw [runTicks_approachStartTime_of_set later _ (by rw [et]; exact hclock), et]

/-- An instance of `approachStartTime_set_once`: the speed is raised at clock 250 and again
at clock 350. -/
theorem approachStartTime_set_once_witness :
    noRaiseSpeedProcessed LanderGame.construct [leversOff 50, leversOn .UNUSED 150] = true ∧
      processesRaiseSpeed (runTicks LanderGame.construct [leversOff 50, leversOn .UNUSED 150])
        (leversOn .RAISE_SPEED 250) = true ∧
      (leversOn .RAISE_SPEED 250).millis ≠ 0 ∧
      (runTicks LanderGame.construct
        ([leversOff 50, leversOn .UNUSED 150] ++
          leversOn .RAISE_SPEED 250 :: [leversOn .RAISE_SPEED 350])).approachStartTime
        = 250 :=
  ⟨by decide, by decide, by decide,
    (approachStartTime_set_once [leversOff 50, leversOn .UNUSED 150]
      (leversOn .RAISE_SPEED 250) [leversOn .RAISE_SPEED 350]
      (by decide) (by decide) (by decide)).2.2.2.2⟩

/-- C8 on the code: the clock is an `unsigned long` that wraps to 0; when the first tick
that processes `RAISE_SPEED` reads it as 0, the start time still holds 0 after that tick,
and the next `RAISE_SPEED` tick, at clock reading 100, writes the start time a second
time. -/
theorem approachStartTime_written_twice :
    noRaiseSpeedProcessed LanderGame.construct
        [leversOff 4294967096, leversOn .UNUSED 4294967196] = true ∧
      processesRaiseSpeed
        (runTicks LanderGame.construct [leversOff 4294967096, leversOn .UNUSED 4294967196])
        (leversOn .RAISE_SPEED 0) = true ∧
      (runTicks LanderGame.construct
        [leversOff 4294967096, leversOn .UNUSED 4294967196]).lander_speed = 0 ∧
      (runTicks LanderGame.construct
        [leversOff 4294967096, leversOn .UNUSED 4294967196,
          leversOn .RAISE_SPEED 0]).lander_speed = 1 ∧
      (runTicks LanderGame.construct
        [leversOff 4294967096, leversOn .UNUSED 4294967196,
          leversOn .RAISE_SPEED 0]).approachStartTime = 0 ∧
      (runTicks LanderGame.construct
        [leversOff 4294967096, leversOn .UNUSED 4294967196,
          leversOn .RAISE_SPEED 0, leversOn .RAISE_SPEED 100]).approachStartTime = 100 := by
  decide

/-! ## Speed -/

/-- C11: `RAISE_SPEED` raises the speed by exactly 1; `LOWER_SPEED` lowers it by 1 when it
is positive and leaves it at 0 when it is 0; no other key changes the speed; a whole
`update()` changes the speed only through `processInflightState`; and so the speed is never
negative in a state reached from the constructor. -/
theorem speed_never_negative (g : LanderGame) (t : Nat) (k : LANDER_CONTROLS) (i : TickInput)
    (inputs : List TickInput) :
    (processInflightState g .RAISE_SPEED t).lander_speed = g.lander_speed + 1 ∧
    (g.lander_speed > 0 →
      (processInflightState g .LOWER_SPEED t).lander_speed = g.lander_speed - 1) ∧
    (g.lander_speed = 0 → (processInflightState g .LOWER_SPEED t).lander_speed = 0) ∧
    (k ≠ .RAISE_SPEED → k ≠ .LOWER_SPEED →
      (processInflightState g k t).lander_speed = g.lander_speed) ∧
    ((update g i).lander_speed = g.lander_speed ∨
      (update g i).lander_speed
        = (processInflightState g i.currentKey i.millis).lander_speed) ∧
    0 ≤ (runTicks LanderGame.construct inputs).lander_speed := by
  refine ⟨?_, ?_, ?_, ?_, ?_, ?_⟩
  · rw [processInflightState_lander_speed]
  · intro hpos
    rw [processInflightState_lander_speed]
    exact if_pos hpos
  · intro hzero
    rw [processInflightState_lander_speed]
    have hnot : ¬ g.lander_speed > 0 := by omega
    rw [if_neg hnot, hzero]
  · intro hr hl
    rw [processInflightState_lander_speed]
    cases k <;> first | rfl | exact absurd rfl hr | exact absurd rfl hl
  · rw [(update_fields g i).1]
    rcases flying_or_grounded g.approach_state with h | h
    · right
      rw [phaseSwitch_of_flying g i h, (processApproachInFlight_fields g _ _).2.2.2.2.1]
    · left
      rcases phaseSwitch_of_grounded g i h with e | e | e <;> rw [e]
  · exact (invariant_runTicks inputs LanderGame.construct invariant_construct).speed_nonneg

/-- Witness for C11: lowering the speed from 2, lowering it from 0, and steering. -/
theorem speed_never_negative_witness :
    (({ LanderGame.construct with lander_speed := 2 } : LanderGame).lander_speed > 0 ∧
      (processInflightState { LanderGame.construct with lander_speed := 2 }
        .LOWER_SPEED 7).lander_speed = 2 - 1) ∧
    (LanderGame.construct.lander_speed = 0 ∧
      (processInflightState LanderGame.construct .LOWER_SPEED 7).lander_speed = 0) ∧
    (LANDER_CONTROLS.STEER_UP ≠ LANDER_CONTROLS.RAISE_SPEED ∧
      LANDER_CONTROLS.STEER_UP ≠ LANDER_CONTROLS.LOWER_SPEED ∧
      (processInflightState LanderGame.construct .STEER_UP 7).lander_speed
        = LanderGame.construct.lander_speed) :=
  ⟨⟨by decide,
      (speed_never_negative { LanderGame.construct with lander_speed := 2 } 7 .STEER_UP
        (leversOff 0) []).2.1 (by decide)⟩,
    ⟨rfl,
      (speed_never_negative LanderGame.construct 7 .STEER_UP (leversOff 0) []).2.2.1 rfl⟩,
    ⟨by decide, by decide,
      (speed_never_negative LanderGame.construct 7 .STEER_UP (leversOff 0) []).2.2.2.1
        (by decide) (by decide)⟩⟩

/-! ## Random drift -/

/-- C12: for every value `r` that `random(-1, DRIFT_CONTROL)` can return (from -1 up to 2),
`getRandomDrift` maps 2 to 0 and every other value to itself; the result is -1, 0 or 1;
the result is 0 exactly for the two draws 0 and 2, -1 exactly for the draw -1 and 1 exactly
for the draw 1; and the member of `LanderHardware` computes the same value. -/
theorem getRandomDrift_skew (r : Int) (hlo : -1 ≤ r) (hhi : r < DRIFT_CONTROL) :
    getRandomDrift r = (if r = 2 then 0 else r) ∧
    (getRandomDrift r = -1 ∨ getRandomDrift r = 0 ∨ getRandomDrift r = 1) ∧
    (getRandomDrift r = 0 ↔ r = 0 ∨ r = 2) ∧
    (getRandomDrift r = -1 ↔ r = -1) ∧
    (getRandomDrift r = 1 ↔ r = 1) ∧
    LanderHardware.getRandomDrift r = getRandomDrift r := by
  simp only [DRIFT_CONTROL] at hhi
  unfold LanderHardware.getRandomDrift getRandomDrift
  have hcases : r = -1 ∨ r = 0 ∨ r = 1 ∨ r = 2 := by omega
  rcases hcases with h | h | h | h <;> subst h <;> decide

/-- Witness for C12: the draw 2 is folded back to 0. -/
theorem getRandomDrift_skew_witness :
    (-1 : Int) ≤ 2 ∧ (2 : Int) < DRIFT_CONTROL ∧ getRandomDrift 2 = 0 ∧
      LanderHardware.getRandomDrift 2 = getRandomDrift 2 :=
  ⟨by decide, by decide,
    ((getRandomDrift_skew 2 (by decide) (by decide)).2.2.1).mpr (Or.inr rfl),
    (getRandomDrift_skew 2 (by decide) (by decide)).2.2.2.2.2⟩

/-! ## Control processing touches one group of fields -/

/-- C13: `processInflightState` handles a key in exactly one way.  With a speed key only
the speed and the start time can differ from the object before; with a gear key only the
gear state; with one of the eight steering keys only the two drift offsets; and with
`UNUSED` the object is returned unchanged. -/
theorem processInflightState_frame (g : LanderGame) (k : LANDER_CONTROLS) (t : Nat) :
    (match k with
     | .RAISE_SPEED | .LOWER_SPEED =>
       processInflightState g k t =
         { g with lander_speed := (processInflightState g k t).lander_speed
                  approachStartTime := (processInflightState g k t).approachStartTime }
     | .LOWER_GEAR | .RAISE_GEAR =>
       processInflightState g k t =
         { g with gear_state := (processInflightState g k t).gear_state }
     | .UNUSED => processInflightState g k t = g
     | _ =>
       processInflightState g k t =
         { g with mother_ship_x_offset := (processInflightState g k t).mother_ship_x_offset
                  mother_ship_y_offset := (processInflightState g k t).mother_ship_y_offset })
    := by
  cases k <;>
    simp only [processInflightState, processSpeedState, processGearState,
      processSteeringState] <;>
    (try split_ifs) <;> rfl

/-! ## Steering -/

/-- C14: `processSteeringState` moves the drift by exactly one step and does not clamp:
up is `(x, y + 1)`, down `(x, y - 1)`, left `(x + 1, y)`, right `(x - 1, y)`; every
diagonal key is the composition of its two cardinal keys; every other field is kept; and
from `x = 18` the key `STEER_LEFT` gives 19. -/
theorem processSteeringState_steps (g : LanderGame) :
    processSteeringState g .STEER_UP
      = { g with mother_ship_y_offset := g.mother_ship_y_offset + 1 } ∧
    processSteeringState g .STEER_DOWN
      = { g with mother_ship_y_offset := g.mother_ship_y_offset - 1 } ∧
    processSteeringState g .STEER_LEFT
      = { g with mother_ship_x_offset := g.mother_ship_x_offset + 1 } ∧
    processSteeringState g .STEER_RIGHT
      = { g with mother_ship_x_offset := g.mother_ship_x_offset - 1 } ∧
    processSteeringState g .STEER_UP_RIGHT
      = processSteeringState (processSteeringState g .STEER_UP) .STEER_RIGHT ∧
    processSteeringState g .STEER_UP_LEFT
      = processSteeringState (processSteeringState g .STEER_UP) .STEER_LEFT ∧
    processSteeringState g .STEER_DOWN_RIGHT
      = processSteeringState (processSteeringState g .STEER_DOWN) .STEER_RIGHT ∧
    processSteeringState g .STEER_DOWN_LEFT
      = processSteeringState (processSteeringState g .STEER_DOWN) .STEER_LEFT ∧
    processSteeringState g .STEER_UP_RIGHT
      = { g with mother_ship_x_offset := g.mother_ship_x_offset - 1
                 mother_ship_y_offset := g.mother_ship_y_offset + 1 } ∧
    (processSteeringState { g with mother_ship_x_offset := 18 } .STEER_LEFT).mother_ship_x_offset
      = 19 := by
  refine ⟨rfl, rfl, rfl, rfl, rfl, rfl, rfl, rfl, rfl, ?_⟩
  simp [processSteeringState]

/-! ## Game over -/

theorem groundedStill_construct : GroundedStill LanderGame.construct :=
  fun _ => rfl

theorem groundedStill_update (g : LanderGame) (i : TickInput) (h : GroundedStill g) :
    GroundedStill (update g i) := by
  intro hpost
  rw [update_approach_state] at hpost
  rw [(update_fields g i).1]
  rcases flying_or_grounded g.approach_state with hfly | hgr
  · exfalso
    rw [phaseSwitch_of_flying g i hfly] at hpost
    simp only [processApproachInFlight] at hpost
    split_ifs at hpost
    · simp at hpost
    · rw [processInflightState_approach_state] at hpost
      rcases hfly with e | e <;> rcases hpost with e2 | e2 <;> rw [e] at e2 <;> cases e2
  · have hv := h hgr
    rcases phaseSwitch_of_grounded g i hgr with e | e | e <;> rw [e] <;> exact hv

theorem groundedStill_runTicks (inputs : List TickInput) (g : LanderGame)
    (h : GroundedStill g) : GroundedStill (runTicks g inputs) := by
  induction inputs generalizing g with
  | nil => exact h
  | cons i rest ih => exact ih (update g i) (groundedStill_update g i h)

theorem final_of_game_over_step (g : LanderGame) (i : TickInput) (hinv : Invariant g)
    (hstill : GroundedStill g) (hnot : isGameOver g = false)
    (hover : isGameOver (update g i) = true) :
    (update g i).approach_state = .APPROACH_FINAL := by
  have hpos : 0 < g.lander_distance := by
    simpa [isGameOver] using hnot
  have hend : (update g i).lander_distance ≤ 0 := by
    simpa [isGameOver] using hover
  obtain ⟨e1, e2, -⟩ := update_fields g i
  rw [e2] at hend
  rw [update_approach_state]
  rcases flying_or_grounded g.approach_state with hfly | hgr
  · rcases hfly with hin | hfin
    · simp only [phaseSwitch, hin, processApproachInFlight, final_approach_threshold,
        processInflightState_lander_distance]
      split_ifs with hnear
      · rfl
      · exfalso
        have hs := hinv.speed_nonneg
        have hb := hinv.budget
        simp only [INITIAL_DISTANCE] at hb
        have hv : 146 ≤ g.lander_speed := by
          rcases phaseSwitch_lander_speed g i with e | e | ⟨-, e⟩ <;> omega
        nlinarith
    · exact phaseSwitch_final g i hfin
  · exfalso
    have hv := hstill hgr
    have hsame : (phaseSwitch g i).lander_speed = 0 := by
      rcases phaseSwitch_of_grounded g i hgr with e | e | e <;> rw [e] <;> exact hv
    omega

/-- C15: game over is only reached in the final approach.  In every run from the
constructor, when the game is not over before a tick and is over after it, the phase after
that tick is the final approach. -/
theorem game_over_only_in_final (inputs : List TickInput) (i : TickInput)
    (hnot : isGameOver (runTicks LanderGame.construct inputs) = false)
    (hover : isGameOver (runTicks LanderGame.construct (inputs ++ [i])) = true) :
    (runTicks LanderGame.construct (inputs ++ [i])).approach_state
      = APPROACH_STATE.APPROACH_FINAL := by
  rw [runTicks_append] at hover ⊢
  exact final_of_game_over_step _ i
    (invariant_runTicks inputs LanderGame.construct invariant_construct)
    (groundedStill_runTicks inputs LanderGame.construct groundedStill_construct)
    hnot hover

set_option maxRecDepth 100000 in
/-- Witness for C15: after lift-off the speed is raised on every tick; the 54th raise takes
the distance from 45 to -9, on the final approach. -/
theorem game_over_only_in_final_witness :
    isGameOver (runTicks LanderGame.construct
        ([leversOff 0, leversOn .UNUSED 100] ++
          List.replicate 53 (leversOn .RAISE_SPEED 200))) = false ∧
      isGameOver (runTicks LanderGame.construct
        (([leversOff 0, leversOn .UNUSED 100] ++
          List.replicate 53 (leversOn .RAISE_SPEED 200)) ++
            [leversOn .RAISE_SPEED 200])) = true ∧
      (runTicks LanderGame.construct
        (([leversOff 0, leversOn .UNUSED 100] ++
          List.replicate 53 (leversOn .RAISE_SPEED 200)) ++
            [leversOn .RAISE_SPEED 200])).approach_state
        = APPROACH_STATE.APPROACH_FINAL :=
  ⟨by decide, by decide,
    game_over_only_in_final
      ([leversOff 0, leversOn .UNUSED 100] ++ List.replicate 53 (leversOn .RAISE_SPEED 200))
      (leversOn .RAISE_SPEED 200) (by decide) (by decide)⟩

end Lander

/-! # The keypad word reader: where `readWord` writes -/

namespace Keypad

theorem readWordLoop_exit (waitForKey : Nat → Char) (maxLen : Nat) (i : Nat) (b : WordBuffer) :
    LoopExit waitForKey maxLen i b (readWordLoop waitForKey maxLen i b) := by
  induction i, b using readWordLoop.induct waitForKey maxLen with
  | case1 i b c b1 i1 hcond ih =>
    rw [readWordLoop, if_pos hcond]
    simp only [c, b1, i1] at hcond ih ⊢
    generalize readWordLoop waitForKey maxLen (i + 1) (b.store i (waitForKey i)) = r at ih ⊢
    obtain ⟨h1, h2, h3, h4, h5, h6⟩ := ih
    refine ⟨by omega, ?_, ?_, h4, h5, ?_⟩
    · have := hcond.2
      omega
    · rw [h3]
      have hk : r.1 - i = (r.1 - (i + 1)) + 1 := by omega
      rw [hk, List.range'_succ]
      simp [WordBuffer.store]
    · intro j hij hj
      rcases Nat.eq_or_lt_of_le hij with e | hlt
      · rw [← e]; exact hcond.1
      · exact h6 j hlt hj
  | case2 i b c i1 hcond =>
    rw [readWordLoop, if_neg hcond]
    simp only [c, i1] at hcond ⊢
    refine ⟨by simp, by simp, ?_, ?_, ?_, ?_⟩
    · simp [WordBuffer.store]
    · simp [WordBuffer.store]
    · intro hkey
      simp only [Nat.add_sub_cancel] at hkey ⊢
      by_contra hlt
      exact hcond ⟨hkey, by omega⟩
    · intro j hij hj
      simp only at hj
      omega

/-- The indices written by `readWord`, in order: the keys up to and including the first
`'#'` and then the `'\0'` over that `'#'`, or, when none of the first `maxLen` keys is
`'#'`, all `maxLen` keys and then the `'\0'` at index `maxLen`. -/
theorem readWord_written (waitForKey : Nat → Char) (b : WordBuffer) (maxLen : Nat)
    (hlen : 1 ≤ maxLen) :
    (∃ j, j < maxLen ∧ waitForKey j = '#' ∧ (∀ k, k < j → waitForKey k ≠ '#') ∧
        (readWord waitForKey b maxLen).written = b.written ++ List.range' 0 (j + 1) ++ [j]) ∨
      ((∀ j, j < maxLen → waitForKey j ≠ '#') ∧
        (readWord waitForKey b maxLen).written
          = b.written ++ List.range' 0 maxLen ++ [maxLen]) := by
  obtain ⟨h1, h2, h3, h4, h5, h6⟩ := readWordLoop_exit waitForKey maxLen 0 b
  unfold readWord
  simp only [WordBuffer.store]
  generalize readWordLoop waitForKey maxLen 0 b = r at h1 h2 h3 h4 h5 h6 ⊢
  have hle : r.1 ≤ maxLen := by
    have : max (0 + 1) maxLen = maxLen := by omega
    omega
  rw [h4, h3]
  by_cases hkey : waitForKey (r.1 - 1) = '#'
  · left
    refine ⟨r.1 - 1, by omega, hkey, fun k hk => h6 k (Nat.zero_le k) (by omega), ?_⟩
    rw [if_pos hkey]
    have e : r.1 - 1 + 1 = r.1 := by omega
    simp [e]
  · right
    have hN : r.1 = maxLen := le_antisymm hle (h5 hkey)
    refine ⟨fun j hj => ?_, ?_⟩
    · rcases Nat.lt_or_ge (j + 1) r.1 with hlt | hge
      · exact h6 j (Nat.zero_le j) hlt
      · have : j = r.1 - 1 := by omega
        rw [this]; exact hkey
    · rw [if_neg hkey, hN]
      simp

/-- When one of the first `maxLen` keys is `'#'`, every index written is below `maxLen`. -/
theorem readWord_in_bounds_of_hash (waitForKey : Nat → Char) (uninit : Nat → Char)
    (maxLen : Nat) (hlen : 1 ≤ maxLen) (hash : ∃ j, j < maxLen ∧ waitForKey j = '#') :
    ∀ idx ∈ (readWord waitForKey { word := uninit, written := [] } maxLen).written,
      idx < maxLen := by
  intro idx hidx
  rcases readWord_written waitForKey { word := uninit, written := [] } maxLen hlen with
    ⟨j, hj, -, -, hw⟩ | ⟨hno, -⟩
  · rw [hw] at hidx
    simp only [List.nil_append, List.mem_append, List.mem_range', List.mem_singleton] at hidx
    rcases hidx with ⟨k, hk, e⟩ | e <;> omega
  · obtain ⟨j, hj, hkey⟩ := hash
    exact absurd hkey (hno j hj)

/-- When none of the first `maxLen` keys is `'#'`, the terminating `'\0'` is written at
index `maxLen`, one past the last element of an array of `maxLen` chars. -/
theorem readWord_overrun_of_no_hash (waitForKey : Nat → Char) (b : WordBuffer) (maxLen : Nat)
    (hlen : 1 ≤ maxLen) (hno : ∀ j, j < maxLen → waitForKey j ≠ '#') :
    maxLen ∈ (readWord waitForKey b maxLen).written ∧
      (readWord waitForKey b maxLen).word maxLen = '\x00' := by
  constructor
  · rcases readWord_written waitForKey b maxLen hlen with ⟨j, hj, hkey, -, -⟩ | ⟨-, hw⟩
    · exact absurd hkey (hno j hj)
    · rw [hw]
      simp
  · obtain ⟨h1, h2, h3, h4, h5, h6⟩ := readWordLoop_exit waitForKey maxLen 0 b
    unfold readWord
    simp only [WordBuffer.store]
    generalize readWordLoop waitForKey maxLen 0 b = r at h1 h2 h3 h4 h5 h6 ⊢
    have hle : r.1 ≤ maxLen := by
      have : max (0 + 1) maxLen = maxLen := by omega
      omega
    have hkey : waitForKey (r.1 - 1) ≠ '#' := hno _ (by omega)
    have hN : r.1 = maxLen := le_antisymm hle (h5 hkey)
    rw [h4, if_neg hkey, hN]
    simp

/-- C16 on the code: `loop()` passes an array of `MAX_WORD_LENGTH = 4` chars and the
length 4; when the keys 1, 2, 3, 4 are pressed the loop fills the indices 0 to 3 and the
terminating `'\0'` is then stored at index 4, outside the array. -/
theorem readWord_writes_past_buffer (uninit : Nat → Char) :
    (loop (keysFrom ['1', '2', '3', '4']) uninit).written = [0, 1, 2, 3, 4] ∧
      (loop (keysFrom ['1', '2', '3', '4']) uninit).word MAX_WORD_LENGTH = '\x00' ∧
      ¬ (∀ idx ∈ (loop (keysFrom ['1', '2', '3', '4']) uninit).written,
          idx < MAX_WORD_LENGTH) := by
  have hw : (loop (keysFrom ['1', '2', '3', '4']) uninit).written = [0, 1, 2, 3, 4] := by
    simp [loop, readWord, readWordLoop, keysFrom, WordBuffer.store, MAX_WORD_LENGTH]
  refine ⟨hw, ?_, ?_⟩
  · simp [loop, readWord, readWordLoop, keysFrom, WordBuffer.store, MAX_WORD_LENGTH]
  · rw [hw]
    intro hall
    exact absurd (hall 4 (by simp)) (by decide)

end Keypad
